import Mathlib

/-!
Verification of the raccoon GitLab-webhook notifier.

This file gives a shallow embedding of the program's two pure subsystems:

* `src/gitlab.rs` — the event taxonomy (`PushEvent`, `TagPushEvent`, …),
  their serde decoders, the `fmt::Display` renderers, and the `dispatch`
  entry point; and
* `src/irc.rs` — the `split_channel_keys` channel-list parser.

Rust strings are modelled as Lean `String` (a list of Unicode scalar
values) together with explicit UTF-8 byte accounting: `byteLen` models
Rust's `str::len` (byte length) and `rustTruncate` models
`String::truncate`, which is a no-op past the end, cuts at a character
boundary, and PANICS when the requested byte index falls inside a
multi-byte character.  Functions that can panic return `Option`
(`none` = panic).  JSON numbers are modelled as integers (the payload
fields decoded here are integer-typed; floats are out of scope).
-/

/-- JSON values, as far as the decoders of gitlab.rs observe them. -/
inductive Json where
  | null : Json
  | bool : Bool → Json
  | num : Int → Json
  | str : String → Json
  | arr : List Json → Json
  | obj : List (String × Json) → Json

/-- Outcome of running a piece of Rust code that may panic. -/
inductive RunResult (α : Type) where
  | ok : α → RunResult α
  | panicked : RunResult α
deriving DecidableEq

/-- UTF-8 byte length of a list of characters (Rust `str::len`). -/
def byteSum (l : List Char) : Nat :=
  (l.map Char.utf8Size).sum

/-- UTF-8 byte length of a string (Rust `String::len`). -/
def byteLen (s : String) : Nat :=
  byteSum s.data

/-- Core of `String::truncate`: keep the prefix of exactly `n` UTF-8
bytes; `none` when byte index `n` falls inside a character (Rust
panics there).  Only called when `n < byteSum l`. -/
def truncList : List Char → Nat → Option (List Char)
  | _, 0 => some []
  | [], _ + 1 => none
  | c :: cs, m + 1 =>
    if c.utf8Size ≤ m + 1 then
      (truncList cs (m + 1 - c.utf8Size)).map (fun t => c :: t)
    else
      none

/-- Rust `String::truncate(n)`: no-op when `n` is at least the byte
length, otherwise cut at byte `n`; `none` models the panic when `n`
is not a character boundary. -/
def rustTruncate (s : String) (n : Nat) : Option String :=
  if byteLen s ≤ n then some s
  else (truncList s.data n).map (fun l => ⟨l⟩)

/-- Rust `char::is_whitespace`: the Unicode `White_Space` property. -/
def rustIsWhitespace (c : Char) : Bool :=
  [0x09, 0x0A, 0x0B, 0x0C, 0x0D, 0x20, 0x85, 0xA0, 0x1680,
   0x2000, 0x2001, 0x2002, 0x2003, 0x2004, 0x2005, 0x2006, 0x2007,
   0x2008, 0x2009, 0x200A, 0x2028, 0x2029, 0x202F, 0x205F, 0x3000].contains c.toNat

/-- Rust `str::trim_end`: drop trailing whitespace. -/
def rustTrimEnd (s : String) : String :=
  ⟨(s.data.reverse.dropWhile rustIsWhitespace).reverse⟩

/-- Accumulator pass of `str::split(sep)`: splits into the (always
non-empty) list of segments between occurrences of `sep`. -/
def splitAux (sep : Char) : List Char → List Char → List (List Char)
  | [], acc => [acc.reverse]
  | c :: cs, acc =>
    if c = sep then acc.reverse :: splitAux sep cs []
    else splitAux sep cs (c :: acc)

/-- Rust `str::split(sep)` collected into a list. -/
def splitOnChar (sep : Char) (s : String) : List String :=
  (splitAux sep s.data []).map (fun l => ⟨l⟩)

/-- Rust `rsplit(sep).nth(0).unwrap_or(d)`: the segment after the last
separator, with `d` as the (in fact unreachable) fallback. -/
def rsplitFirst (sep : Char) (s : String) (d : String) : String :=
  ((splitOnChar sep s).reverse.head?).getD d

/-- Modelled from the spec: "tag name = substring of the ref after the
last `/`" — the characters after the final separator, read off the
reversed string; the whole string when no separator occurs. -/
def lastSegment (r : String) : String :=
  ⟨(r.data.reverse.takeWhile (fun c => c != '/')).reverse⟩

/-- Rust `message.split('\n').nth(0).unwrap_or("<invalid>")`. -/
def firstLine (msg : String) : String :=
  ((splitOnChar '\n' msg).head?).getD "<invalid>"

/-- Rust `str::to_lowercase`, character-wise (the noteable types this
program lowercases are ASCII, where Rust lowercasing is per-character). -/
def rustToLowercase (s : String) : String :=
  ⟨s.data.map Char.toLower⟩

/-- Rust `str::ends_with(c)` for a single character pattern. -/
def rustEndsWithChar (s : String) (c : Char) : Bool :=
  s.data.getLast? == some c

/-- The 40-character all-zero "before" sentinel of a tag-push payload. -/
def zeros40 : String :=
  "0000000000000000000000000000000000000000"

structure User where
  name : String
deriving DecidableEq

structure Repository where
  name : String
  homepage : String
deriving DecidableEq

structure Project where
  name : String
  web_url : String
deriving DecidableEq

structure Issue where
  title : String
  url : String
  action : String
deriving DecidableEq

structure MergeRequest where
  title : String
  action : String
  url : String
deriving DecidableEq

structure Comment where
  noteable_type : String
  url : String
  note : String
deriving DecidableEq

structure WikiEditEvent where
  title : String
  action : String
  url : String
deriving DecidableEq

structure Commit (T : Type) where
  id : T
  sha : String
  message : String
  url : String
deriving DecidableEq

structure Pipeline where
  status : String
  duration : Nat
deriving DecidableEq

structure PushEvent where
  user_name : String
  total_commits_count : Nat
  repository : Repository
deriving DecidableEq

structure TagPushEvent where
  user_name : String
  before : String
  tag_ref : String
  repository : Repository
deriving DecidableEq

structure IssueEvent where
  user : User
  issue : Issue
  repository : Repository
deriving DecidableEq

structure CommentEvent where
  user : User
  comment : Comment
deriving DecidableEq

structure MergeRequestEvent where
  user : User
  merge_request : MergeRequest
  repository : Repository
deriving DecidableEq

structure WikiEvent where
  user : User
  wiki_edit : WikiEditEvent
deriving DecidableEq

structure PipelineEvent where
  commit : Commit String
  pipeline : Pipeline
  project : Project
deriving DecidableEq

structure BuildEvent where
  commit : Commit Nat
  build_name : String
  build_stage : String
  build_status : String
  repository : Repository
deriving DecidableEq

/-- Field lookup for serde struct decoding: the payload must be a JSON
object; unknown extra fields are ignored, so only lookups matter. -/
def getField : Json → String → Option Json
  | Json.obj fs, name => fs.lookup name
  | _, _ => none

/-- serde: decode a JSON value as a `String`. -/
def asStr : Json → Option String
  | Json.str s => some s
  | _ => none

/-- serde: decode a JSON value as a `u32`. -/
def asU32 : Json → Option Nat
  | Json.num n => if 0 ≤ n ∧ n < 4294967296 then some n.toNat else none
  | _ => none

/-- serde: decode a JSON value as a `usize` (64-bit). -/
def asUsize : Json → Option Nat
  | Json.num n => if 0 ≤ n ∧ n < 18446744073709551616 then some n.toNat else none
  | _ => none

/-- serde `#[serde(default)]` on a `String` field: an absent field
becomes `""`; a present field must still be a string. -/
def getStrD (j : Json) (name : String) : Option String :=
  match getField j name with
  | none => some ""
  | some v => asStr v

/-- serde `#[serde(default)]` on a `usize` field: an absent field
becomes `0`; a present field must still be a number. -/
def getUsizeD (j : Json) (name : String) : Option Nat :=
  match getField j name with
  | none => some 0
  | some v => asUsize v

def decodeUser (j : Json) : Option User := do
  let name ← getField j "name" >>= asStr
  some { name }

def decodeRepository (j : Json) : Option Repository := do
  let name ← getField j "name" >>= asStr
  let homepage ← getField j "homepage" >>= asStr
  some { name, homepage }

def decodeProject (j : Json) : Option Project := do
  let name ← getField j "name" >>= asStr
  let web_url ← getField j "web_url" >>= asStr
  some { name, web_url }

def decodeIssue (j : Json) : Option Issue := do
  let title ← getField j "title" >>= asStr
  let url ← getField j "url" >>= asStr
  let action ← getField j "action" >>= asStr
  some { title, url, action }

def decodeMergeRequest (j : Json) : Option MergeRequest := do
  let title ← getField j "title" >>= asStr
  let action ← getField j "action" >>= asStr
  let url ← getField j "url" >>= asStr
  some { title, action, url }

def decodeComment (j : Json) : Option Comment := do
  let noteable_type ← getField j "noteable_type" >>= asStr
  let url ← getField j "url" >>= asStr
  let note ← getField j "note" >>= asStr
  some { noteable_type, url, note }

def decodeWikiEditEvent (j : Json) : Option WikiEditEvent := do
  let title ← getField j "title" >>= asStr
  let action ← getField j "action" >>= asStr
  let url ← getField j "url" >>= asStr
  some { title, action, url }

/-- `Commit<String>`: `id` is a required string; `sha` and `url` carry
`#[serde(default)]`. -/
def decodeCommitStr (j : Json) : Option (Commit String) := do
  let id ← getField j "id" >>= asStr
  let sha ← getStrD j "sha"
  let message ← getField j "message" >>= asStr
  let url ← getStrD j "url"
  some { id, sha, message, url }

/-- `Commit<u32>`: `id` is a required number; `sha` and `url` carry
`#[serde(default)]`. -/
def decodeCommitU32 (j : Json) : Option (Commit Nat) := do
  let id ← getField j "id" >>= asU32
  let sha ← getStrD j "sha"
  let message ← getField j "message" >>= asStr
  let url ← getStrD j "url"
  some { id, sha, message, url }

def decodePipeline (j : Json) : Option Pipeline := do
  let status ← getField j "status" >>= asStr
  let duration ← getUsizeD j "duration"
  some { status, duration }

def decodePushEvent (j : Json) : Option PushEvent := do
  let user_name ← getField j "user_name" >>= asStr
  let total_commits_count ← getField j "total_commits_count" >>= asU32
  let repository ← getField j "repository" >>= decodeRepository
  some { user_name, total_commits_count, repository }

def decodeTagPushEvent (j : Json) : Option TagPushEvent := do
  let user_name ← getField j "user_name" >>= asStr
  let before ← getField j "before" >>= asStr
  let tag_ref ← getField j "ref" >>= asStr
  let repository ← getField j "repository" >>= decodeRepository
  some { user_name, before, tag_ref, repository }

def decodeIssueEvent (j : Json) : Option IssueEvent := do
  let user ← getField j "user" >>= decodeUser
  let issue ← getField j "object_attributes" >>= decodeIssue
  let repository ← getField j "repository" >>= decodeRepository
  some { user, issue, repository }

/-- `CommentEvent` reads only `user` and `object_attributes`; it has no
repository field. -/
def decodeCommentEvent (j : Json) : Option CommentEvent := do
  let user ← getField j "user" >>= decodeUser
  let comment ← getField j "object_attributes" >>= decodeComment
  some { user, comment }

def decodeMergeRequestEvent (j : Json) : Option MergeRequestEvent := do
  let user ← getField j "user" >>= decodeUser
  let merge_request ← getField j "object_attributes" >>= decodeMergeRequest
  let repository ← getField j "repository" >>= decodeRepository
  some { user, merge_request, repository }

def decodeWikiEvent (j : Json) : Option WikiEvent := do
  let user ← getField j "user" >>= decodeUser
  let wiki_edit ← getField j "object_attributes" >>= decodeWikiEditEvent
  some { user, wiki_edit }

def decodePipelineEvent (j : Json) : Option PipelineEvent := do
  let commit ← getField j "commit" >>= decodeCommitStr
  let pipeline ← getField j "object_attributes" >>= decodePipeline
  let project ← getField j "project" >>= decodeProject
  some { commit, pipeline, project }

def decodeBuildEvent (j : Json) : Option BuildEvent := do
  let commit ← getField j "commit" >>= decodeCommitU32
  let build_name ← getField j "build_name" >>= asStr
  let build_stage ← getField j "build_stage" >>= asStr
  let build_status ← getField j "build_status" >>= asStr
  let repository ← getField j "repository" >>= decodeRepository
  some { commit, build_name, build_stage, build_status, repository }

def User.fmt (u : User) : String :=
  u.name

def Repository.fmt (r : Repository) : String :=
  r.name ++ " (" ++ r.homepage ++ ")"

def Project.fmt (p : Project) : String :=
  p.name ++ " (" ++ p.web_url ++ ")"

def Issue.fmt (i : Issue) : String :=
  i.action ++ "ed issue \"" ++ i.title ++ "\" (" ++ i.url ++ ")"

def MergeRequest.fmt (m : MergeRequest) : String :=
  m.action ++ "ed merge request \"" ++ m.title ++ "\" (" ++ m.url ++ ")"

def Pipeline.fmt (p : Pipeline) : String :=
  "Pipeline " ++ p.status ++
    (if p.duration > 0 then " in " ++ toString p.duration ++ " seconds" else "")

def WikiEditEvent.fmt (w : WikiEditEvent) : String :=
  (w.action ++ (if rustEndsWithChar w.action 'e' then "d" else "ed")) ++
    " wiki page \"" ++ w.title ++ "\" (" ++ w.url ++ ")"

/-- `Display for Commit<String>` clones `id` and truncates it to its
first 7 bytes (`none` = truncation panic). -/
def Commit.fmtStr (c : Commit String) : Option String :=
  (rustTruncate c.id 7).map
    (fun shortid => shortid ++ ": " ++ firstLine c.message ++ " (" ++ c.url ++ ")")

/-- `Display for Commit<u32>` clones `sha` (not `id`) and truncates it
to its first 7 bytes (`none` = truncation panic). -/
def Commit.fmtU32 (c : Commit Nat) : Option String :=
  (rustTruncate c.sha 7).map
    (fun shortid => shortid ++ ": " ++ firstLine c.message)

/-- The note-text transformation inside `Display for Comment`: texts of
more than 40 bytes are truncated to 40 bytes, right-trimmed, and get a
`"..."` suffix (`none` = truncation panic). -/
def truncateNote (note : String) : Option String :=
  if byteLen note > 40 then
    (rustTruncate note 40).map (fun m => rustTrimEnd m ++ "...")
  else
    some note

def Comment.fmt (c : Comment) : Option String :=
  (truncateNote c.note).map
    (fun msg => "commented on " ++ rustToLowercase c.noteable_type ++ " " ++ c.url ++ ": " ++ msg)

def PushEvent.fmt (e : PushEvent) : String :=
  "🌋 " ++ e.user_name ++ " pushed " ++ toString e.total_commits_count ++
    " commits to " ++ e.repository.fmt

def TagPushEvent.fmt (e : TagPushEvent) : String :=
  "🔖 " ++ e.user_name ++ " " ++
    (if e.before == zeros40 then "pushed" else "deleted") ++
    " tag \"" ++ rsplitFirst '/' e.tag_ref "<invalid>" ++ "\" to " ++ e.repository.fmt

def IssueEvent.fmt (e : IssueEvent) : String :=
  "🐛 " ++ e.user.fmt ++ " " ++ e.issue.fmt ++ " on " ++ e.repository.fmt

def MergeRequestEvent.fmt (e : MergeRequestEvent) : String :=
  "🚓 " ++ e.user.fmt ++ " " ++ e.merge_request.fmt ++ " on " ++ e.repository.fmt

def WikiEvent.fmt (e : WikiEvent) : String :=
  "📰 " ++ e.user.fmt ++ " " ++ e.wiki_edit.fmt

def CommentEvent.fmt (e : CommentEvent) : Option String :=
  (e.comment.fmt).map (fun s => "💬 " ++ e.user.fmt ++ " " ++ s)

def PipelineEvent.fmt (e : PipelineEvent) : Option String :=
  (e.commit.fmtStr).map
    (fun cs => "👷 " ++ e.pipeline.fmt ++ " on " ++ cs ++ " for " ++ e.project.fmt)

def BuildEvent.fmt (e : BuildEvent) : Option String :=
  (e.commit.fmtU32).map
    (fun cs => "🚛 Build " ++ e.build_name ++ " (" ++ e.build_stage ++ ") " ++
      e.build_status ++ " on " ++ cs ++ " for " ++ e.repository.fmt)

/-- The `to_string` helper of gitlab.rs: a successful decode is
rendered (propagating a rendering panic); a decode error is logged and
becomes `None`. -/
def toStringR {T : Type} (res : Option T) (render : T → Option String) :
    RunResult (Option String) :=
  match res with
  | some pe =>
    match render pe with
    | some s => RunResult.ok (some s)
    | none => RunResult.panicked
  | none => RunResult.ok none

/-- The `dispatch` entry point of gitlab.rs: route on the discriminant,
decode, render.  Unknown discriminants log a warning and return `None`. -/
def dispatch (kind : String) (data : Json) : RunResult (Option String) :=
  if kind = "push" then
    toStringR (decodePushEvent data) (fun e => some e.fmt)
  else if kind = "tag_push" then
    toStringR (decodeTagPushEvent data) (fun e => some e.fmt)
  else if kind = "issue" then
    toStringR (decodeIssueEvent data) (fun e => some e.fmt)
  else if kind = "note" then
    toStringR (decodeCommentEvent data) CommentEvent.fmt
  else if kind = "merge_request" then
    toStringR (decodeMergeRequestEvent data) (fun e => some e.fmt)
  else if kind = "wiki_page" then
    toStringR (decodeWikiEvent data) (fun e => some e.fmt)
  else if kind = "pipeline" then
    toStringR (decodePipelineEvent data) PipelineEvent.fmt
  else if kind = "build" then
    toStringR (decodeBuildEvent data) BuildEvent.fmt
  else
    RunResult.ok none

/-- The closed set of discriminants `dispatch` matches on. -/
def knownKinds : List String :=
  ["push", "tag_push", "issue", "note", "merge_request", "wiki_page", "pipeline", "build"]

/-- True when `kind` is known and its schema decode of `data` fails. -/
def knownDecodeFailed (kind : String) (data : Json) : Bool :=
  if kind = "push" then (decodePushEvent data).isNone
  else if kind = "tag_push" then (decodeTagPushEvent data).isNone
  else if kind = "issue" then (decodeIssueEvent data).isNone
  else if kind = "note" then (decodeCommentEvent data).isNone
  else if kind = "merge_request" then (decodeMergeRequestEvent data).isNone
  else if kind = "wiki_page" then (decodeWikiEvent data).isNone
  else if kind = "pipeline" then (decodePipelineEvent data).isNone
  else if kind = "build" then (decodeBuildEvent data).isNone
  else false

/-- `split_channel_keys` of irc.rs: every entry contributes the part
before its first `:` to the channel list; entries with at least two
`:`-separated parts contribute (first, second) to the key mapping
(collected into a `HashMap`, modelled as an association list).  The
`unwrap` on the first split element never panics because a split is
never empty, so it is modelled by a plain default. -/
def split_channel_keys (channels : List String) : List String × List (String × String) :=
  (channels.map (fun c => ((splitOnChar ':' c).head?).getD ""),
   channels.filterMap (fun c =>
     match splitOnChar ':' c with
     | chan :: key :: _ => some (chan, key)
     | _ => none))

theorem byteSum_append (a b : List Char) : byteSum (a ++ b) = byteSum a + byteSum b := by
  simp [byteSum]

theorem byteLen_append (a b : String) : byteLen (a ++ b) = byteLen a + byteLen b := by
  simp [byteLen, byteSum_append]

theorem truncList_byteSum : ∀ (l : List Char) (n : Nat) (t : List Char),
    truncList l n = some t → byteSum t = n := by
  intro l
  induction l with
  | nil =>
    intro n t h
    cases n with
    | zero => simp [truncList] at h; subst h; simp [byteSum]
    | succ m => simp [truncList] at h
  | cons c cs ih =>
    intro n t h
    cases n with
    | zero => simp [truncList] at h; subst h; simp [byteSum]
    | succ m =>
      simp only [truncList] at h
      by_cases hs : c.utf8Size ≤ m + 1
      · rw [if_pos hs] at h
        rcases Option.map_eq_some'.mp h with ⟨t', ht', rfl⟩
        have := ih (m + 1 - c.utf8Size) t' ht'
        simp [byteSum] at this ⊢
        omega
      · rw [if_neg hs] at h
        exact absurd h (by simp)

theorem truncList_append_exact : ∀ (a b : List Char), truncList (a ++ b) (byteSum a) = some a := by
  intro a
  induction a with
  | nil =>
    intro b
    simp [byteSum, truncList]
  | cons c cs ih =>
    intro b
    have hpos : 0 < byteSum (c :: cs) := by
      have := c.utf8Size_pos
      simp [byteSum]
      omega
    obtain ⟨m, hm⟩ : ∃ m, byteSum (c :: cs) = m + 1 :=
      ⟨byteSum (c :: cs) - 1, by omega⟩
    have hsz : c.utf8Size ≤ m + 1 := by
      have : byteSum (c :: cs) = c.utf8Size + byteSum cs := by simp [byteSum]
      omega
    have hrest : m + 1 - c.utf8Size = byteSum cs := by
      have : byteSum (c :: cs) = c.utf8Size + byteSum cs := by simp [byteSum]
      omega
    rw [List.cons_append, hm]
    simp only [truncList, if_pos hsz, hrest, ih b]
    rfl

theorem rustTruncate_byteLen (s : String) (n : Nat) (t : String)
    (hn : n < byteLen s) (h : rustTruncate s n = some t) : byteLen t = n := by
  unfold rustTruncate at h
  rw [if_neg (by omega)] at h
  rcases Option.map_eq_some'.mp h with ⟨l, hl, rfl⟩
  exact truncList_byteSum s.data n l hl

theorem rustTruncate_append_exact (s t : String) (ht : 0 < byteLen t) :
    rustTruncate (s ++ t) (byteLen s) = some s := by
  unfold rustTruncate
  rw [if_neg (by rw [byteLen_append]; omega)]
  have : (s ++ t).data = s.data ++ t.data := String.data_append s t
  rw [this]
  have : byteLen s = byteSum s.data := rfl
  rw [this, truncList_append_exact]
  rfl

theorem takeWhile_length_ne_of_mem {sep : Char} {l : List Char} (h : sep ∈ l) :
    (l.takeWhile (fun c => c != sep)).length ≠ l.length := by
  intro hlen
  have heq : l.takeWhile (fun c => c != sep) = l :=
    (List.takeWhile_prefix _).eq_of_length hlen
  have : ∀ x ∈ l, (x != sep) = true := List.takeWhile_eq_self_iff.mp heq
  simpa using this sep h

theorem takeWhile_stop_append {sep x : Char} {l : List Char} (h : sep ∈ l) :
    (l ++ [x]).takeWhile (fun c => c != sep) = l.takeWhile (fun c => c != sep) := by
  rw [List.takeWhile_append, if_neg (takeWhile_length_ne_of_mem h)]

theorem takeWhile_of_not_mem {sep : Char} {l : List Char} (h : sep ∉ l) :
    l.takeWhile (fun c => c != sep) = l :=
  List.takeWhile_eq_self_iff.mpr (fun x hx => by
    simp only [bne_iff_ne, ne_eq]
    intro hxs
    exact h (hxs ▸ hx))

theorem splitAux_getLast? (sep : Char) : ∀ (l acc : List Char),
    (splitAux sep l acc).getLast? =
      some (if sep ∈ l then (l.reverse.takeWhile (fun c => c != sep)).reverse
            else acc.reverse ++ l) := by
  intro l
  induction l with
  | nil =>
    intro acc
    simp [splitAux]
  | cons c cs ih =>
    intro acc
    by_cases hc : c = sep
    · subst hc
      rw [splitAux, if_pos rfl]
      have hne : splitAux c cs [] ≠ [] := by
        rw [← List.getLast?_isSome, ih []]
        rfl
      rcases List.exists_cons_of_ne_nil hne with ⟨y, ys, hys⟩
      rw [hys, List.getLast?_cons_cons, ← hys, ih []]
      rw [if_pos (List.mem_cons_self c cs)]
      by_cases hmem : c ∈ cs
      · rw [if_pos hmem]
        have : c ∈ cs.reverse := List.mem_reverse.mpr hmem
        simp only [List.reverse_cons]
        rw [takeWhile_stop_append this]
      · rw [if_neg hmem]
        have : c ∉ cs.reverse := fun hr => hmem (List.mem_reverse.mp hr)
        simp only [List.reverse_cons]
        rw [List.takeWhile_append_of_pos
              (fun a ha => by
                simp only [bne_iff_ne, ne_eq]
                intro has
                exact this (has ▸ ha))]
        simp [List.takeWhile_cons]
    · rw [splitAux, if_neg hc, ih (c :: acc)]
      have hmem_iff : sep ∈ c :: cs ↔ sep ∈ cs := by
        simp [List.mem_cons]
        intro hs
        exact absurd hs.symm hc
      by_cases hmem : sep ∈ cs
      · rw [if_pos hmem, if_pos (hmem_iff.mpr hmem)]
        have hsr : sep ∈ cs.reverse := List.mem_reverse.mpr hmem
        simp only [List.reverse_cons]
        rw [takeWhile_stop_append hsr]
      · rw [if_neg hmem, if_neg (fun h => hmem (hmem_iff.mp h))]
        simp

theorem rsplitFirst_slash (s d : String) : rsplitFirst '/' s d = lastSegment s := by
  unfold rsplitFirst splitOnChar lastSegment
  rw [List.head?_reverse, List.getLast?_map, splitAux_getLast? '/' s.data []]
  by_cases h : '/' ∈ s.data
  · rw [if_pos h]
    rfl
  · rw [if_neg h]
    simp only [Option.map_some', Option.getD_some, List.reverse_nil, List.nil_append]
    have h2 : '/' ∉ s.data.reverse := fun hr => h (List.mem_reverse.mp hr)
    rw [takeWhile_of_not_mem h2, List.reverse_reverse]

theorem splitAux_not_mem (sep : Char) : ∀ (l acc : List Char), sep ∉ l →
    splitAux sep l acc = [acc.reverse ++ l] := by
  intro l
  induction l with
  | nil =>
    intro acc _
    simp [splitAux]
  | cons c cs ih =>
    intro acc h
    have hc : ¬ c = sep := fun he => h (he ▸ List.mem_cons_self c cs)
    rw [splitAux, if_neg hc, ih (c :: acc) (fun hm => h (List.mem_cons_of_mem c hm))]
    simp

theorem splitAux_sep_append (sep : Char) : ∀ (l1 l2 acc : List Char), sep ∉ l1 →
    splitAux sep (l1 ++ sep :: l2) acc = (acc.reverse ++ l1) :: splitAux sep l2 [] := by
  intro l1
  induction l1 with
  | nil =>
    intro l2 acc _
    simp [splitAux]
  | cons c cs ih =>
    intro l2 acc h
    have hc : ¬ c = sep := fun he => h (he ▸ List.mem_cons_self c cs)
    rw [List.cons_append, splitAux, if_neg hc,
        ih l2 (c :: acc) (fun hm => h (List.mem_cons_of_mem c hm))]
    simp

theorem splitOnChar_not_mem (sep : Char) (s : String) (h : sep ∉ s.data) :
    splitOnChar sep s = [s] := by
  unfold splitOnChar
  rw [splitAux_not_mem sep s.data [] h]
  rfl

theorem splitOnChar_colon (name key : String) (h1 : ':' ∉ name.data) (h2 : ':' ∉ key.data) :
    splitOnChar ':' (name ++ ":" ++ key) = [name, key] := by
  unfold splitOnChar
  have hd : (name ++ ":" ++ key).data = name.data ++ ':' :: key.data := by
    rw [String.data_append, String.data_append]
    simp
  rw [hd, splitAux_sep_append ':' name.data (key.data) [] h1,
      splitAux_not_mem ':' key.data [] h2]
  rfl

theorem dispatch_unknown_eq (kind : String) (data : Json) (h : kind ∉ knownKinds) :
    dispatch kind data = RunResult.ok none := by
  simp only [knownKinds, List.mem_cons, List.not_mem_nil, or_false] at h
  push_neg at h
  obtain ⟨h1, h2, h3, h4, h5, h6, h7, h8⟩ := h
  unfold dispatch
  rw [if_neg h1, if_neg h2, if_neg h3, if_neg h4, if_neg h5, if_neg h6, if_neg h7, if_neg h8]

theorem dispatch_decode_failed_eq (kind : String) (data : Json)
    (h2 : kind ∈ knownKinds) (h3 : knownDecodeFailed kind data = true) :
    dispatch kind data = RunResult.ok none := by
  simp only [knownKinds, List.mem_cons, List.not_mem_nil, or_false] at h2
  rcases h2 with h | h | h | h | h | h | h | h <;> subst h
  · have h4 : (decodePushEvent data).isNone = true := h3
    show toStringR (decodePushEvent data) (fun e => some e.fmt) = RunResult.ok none
    rw [Option.isNone_iff_eq_none.mp h4]
    rfl
  · have h4 : (decodeTagPushEvent data).isNone = true := h3
    show toStringR (decodeTagPushEvent data) (fun e => some e.fmt) = RunResult.ok none
    rw [Option.isNone_iff_eq_none.mp h4]
    rfl
  · have h4 : (decodeIssueEvent data).isNone = true := h3
    show toStringR (decodeIssueEvent data) (fun e => some e.fmt) = RunResult.ok none
    rw [Option.isNone_iff_eq_none.mp h4]
    rfl
  · have h4 : (decodeCommentEvent data).isNone = true := h3
    show toStringR (decodeCommentEvent data) CommentEvent.fmt = RunResult.ok none
    rw [Option.isNone_iff_eq_none.mp h4]
    rfl
  · have h4 : (decodeMergeRequestEvent data).isNone = true := h3
    show toStringR (decodeMergeRequestEvent data) (fun e => some e.fmt) = RunResult.ok none
    rw [Option.isNone_iff_eq_none.mp h4]
    rfl
  · have h4 : (decodeWikiEvent data).isNone = true := h3
    show toStringR (decodeWikiEvent data) (fun e => some e.fmt) = RunResult.ok none
    rw [Option.isNone_iff_eq_none.mp h4]
    rfl
  · have h4 : (decodePipelineEvent data).isNone = true := h3
    show toStringR (decodePipelineEvent data) PipelineEvent.fmt = RunResult.ok none
    rw [Option.isNone_iff_eq_none.mp h4]
    rfl
  · have h4 : (decodeBuildEvent data).isNone = true := h3
    show toStringR (decodeBuildEvent data) BuildEvent.fmt = RunResult.ok none
    rw [Option.isNone_iff_eq_none.mp h4]
    rfl

/-- Claim C5 (confirmed): for every discriminant outside the known set
`{push, tag_push, issue, note, merge_request, wiki_page, pipeline,
build}` — including the empty string and the `"no object kind"` value
substituted for an absent `object_kind` field — `dispatch` yields no
notification and never signals an error or panic. -/
theorem c5_unknown_kind_silent (kind : String) (data : Json) (h : kind ∉ knownKinds) :
    dispatch kind data = RunResult.ok none :=
  dispatch_unknown_eq kind data h

/-- Witness for C5: the empty discriminant and the absent-field
substitute both yield the silent non-error outcome. -/
theorem c5_unknown_kind_silent_witness :
    dispatch "" Json.null = RunResult.ok none ∧
    dispatch "no object kind" Json.null = RunResult.ok none :=
  ⟨c5_unknown_kind_silent "" Json.null (by decide),
   c5_unknown_kind_silent "no object kind" Json.null (by decide)⟩

/-- Claim C6 (confirmed): a tag-push event renders the action
`"pushed"` exactly when its `before` field is the 40-character all-zero
string, and `"deleted"` for every other `before` value. -/
theorem c6_tagpush_action (e : TagPushEvent) :
    (e.before = zeros40 →
      TagPushEvent.fmt e = "🔖 " ++ e.user_name ++ " " ++ "pushed" ++ " tag \"" ++
        rsplitFirst '/' e.tag_ref "<invalid>" ++ "\" to " ++ e.repository.fmt) ∧
    (e.before ≠ zeros40 →
      TagPushEvent.fmt e = "🔖 " ++ e.user_name ++ " " ++ "deleted" ++ " tag \"" ++
        rsplitFirst '/' e.tag_ref "<invalid>" ++ "\" to " ++ e.repository.fmt) := by
  constructor
  · intro h
    unfold TagPushEvent.fmt
    rw [show (e.before == zeros40) = true from beq_iff_eq.mpr h]
    rfl
  · intro h
    unfold TagPushEvent.fmt
    rw [show (e.before == zeros40) = false from beq_eq_false_iff_ne.mpr h]
    rfl

/-- Witness for C6: a zero `before` hash renders "pushed", a non-zero
one renders "deleted". -/
theorem c6_tagpush_action_witness :
    TagPushEvent.fmt ⟨"u", zeros40, "refs/tags/v1.0.0", ⟨"r", "h"⟩⟩ =
      "🔖 u pushed tag \"v1.0.0\" to r (h)" ∧
    TagPushEvent.fmt ⟨"u", "deadbeef", "refs/tags/v1.0.0", ⟨"r", "h"⟩⟩ =
      "🔖 u deleted tag \"v1.0.0\" to r (h)" := by
  constructor
  · have h := (c6_tagpush_action ⟨"u", zeros40, "refs/tags/v1.0.0", ⟨"r", "h"⟩⟩).1 rfl
    rw [h]
    decide
  · have h := (c6_tagpush_action ⟨"u", "deadbeef", "refs/tags/v1.0.0", ⟨"r", "h"⟩⟩).2 (by decide)
    rw [h]
    decide

/-- Claim C8 (confirmed): a wiki-edit event appends `"d"` to the action
word when it already ends in the letter e, and `"ed"` otherwise; in
particular "create" renders "created" and "edit" renders "edited"
(see the witness). -/
theorem c8_wiki_verb (w : WikiEditEvent) :
    (w.action.data.getLast? = some 'e' →
      WikiEditEvent.fmt w =
        (w.action ++ "d") ++ " wiki page \"" ++ w.title ++ "\" (" ++ w.url ++ ")") ∧
    (w.action.data.getLast? ≠ some 'e' →
      WikiEditEvent.fmt w =
        (w.action ++ "ed") ++ " wiki page \"" ++ w.title ++ "\" (" ++ w.url ++ ")") := by
  constructor
  · intro h
    unfold WikiEditEvent.fmt rustEndsWithChar
    rw [show (w.action.data.getLast? == some 'e') = true from beq_iff_eq.mpr h]
    rfl
  · intro h
    unfold WikiEditEvent.fmt rustEndsWithChar
    rw [show (w.action.data.getLast? == some 'e') = false from beq_eq_false_iff_ne.mpr h]
    rfl

/-- Witness for C8: "create" renders "created" and "edit" renders
"edited". -/
theorem c8_wiki_verb_witness :
    WikiEditEvent.fmt ⟨"Home", "create", "http://w"⟩ =
      "created wiki page \"Home\" (http://w)" ∧
    WikiEditEvent.fmt ⟨"Home", "edit", "http://w"⟩ =
      "edited wiki page \"Home\" (http://w)" := by
  constructor
  · have h := (c8_wiki_verb ⟨"Home", "create", "http://w"⟩).1 (by decide)
    rw [h]
    decide
  · have h := (c8_wiki_verb ⟨"Home", "edit", "http://w"⟩).2 (by decide)
    rw [h]
    decide

/-- Claim C9 (confirmed): `split_channel_keys` on `["#a:pw", "#b"]`
yields the channel list `["#a", "#b"]` and exactly the key entry
`("#a", "pw")`; in general a `name:key` entry contributes `name` to the
channel list and `(name, key)` to the mapping, and an entry without
`:` contributes only its name. -/
theorem c9_split_channel_keys :
    split_channel_keys ["#a:pw", "#b"] = (["#a", "#b"], [("#a", "pw")]) ∧
    (∀ name key : String, ':' ∉ name.data → ':' ∉ key.data →
      split_channel_keys [name ++ ":" ++ key] = ([name], [(name, key)])) ∧
    (∀ name : String, ':' ∉ name.data →
      split_channel_keys [name] = ([name], [])) := by
  refine ⟨by decide, ?_, ?_⟩
  · intro name key h1 h2
    unfold split_channel_keys
    simp only [List.map_cons, List.map_nil, List.filterMap_cons, List.filterMap_nil]
    rw [splitOnChar_colon name key h1 h2]
    rfl
  · intro name h
    unfold split_channel_keys
    simp only [List.map_cons, List.map_nil, List.filterMap_cons, List.filterMap_nil]
    rw [splitOnChar_not_mem ':' name h]
    rfl

/-- Witness for C9: a keyed entry and an unkeyed entry. -/
theorem c9_split_channel_keys_witness :
    split_channel_keys ["#x:k"] = (["#x"], [("#x", "k")]) ∧
    split_channel_keys ["#y"] = (["#y"], []) := by
  constructor
  · have h := c9_split_channel_keys.2.1 "#x" "k" (by decide) (by decide)
    have e : ("#x" ++ ":" ++ "k" : String) = "#x:k" := by decide
    rw [e] at h
    exact h
  · exact c9_split_channel_keys.2.2 "#y" (by decide)

/-- Claim C10 (confirmed): a `build` payload whose commit object lacks
a `sha` field still decodes, with `sha` defaulting to the empty
string, and its rendered line carries an empty commit short-id (the
`": "` right after `" on "`); the commit `id` of a build event must be
a number (a string id fails to decode) and is never used in the
rendered output. -/
theorem c10_build_commit (bn bs st rn rh msg : String) (c : Commit Nat) (i j : Nat) :
    decodeBuildEvent (Json.obj
      [("commit", Json.obj [("id", Json.num 7), ("message", Json.str msg)]),
       ("build_name", Json.str bn), ("build_stage", Json.str bs),
       ("build_status", Json.str st),
       ("repository", Json.obj [("name", Json.str rn), ("homepage", Json.str rh)])]) =
      some ⟨⟨7, "", msg, ""⟩, bn, bs, st, ⟨rn, rh⟩⟩ ∧
    BuildEvent.fmt ⟨⟨7, "", msg, ""⟩, bn, bs, st, ⟨rn, rh⟩⟩ =
      some ("🚛 Build " ++ bn ++ " (" ++ bs ++ ") " ++ st ++ " on " ++
        (": " ++ firstLine msg) ++ " for " ++ (rn ++ " (" ++ rh ++ ")")) ∧
    BuildEvent.fmt ⟨{ c with id := i }, bn, bs, st, ⟨rn, rh⟩⟩ =
      BuildEvent.fmt ⟨{ c with id := j }, bn, bs, st, ⟨rn, rh⟩⟩ ∧
    decodeBuildEvent (Json.obj
      [("commit", Json.obj [("id", Json.str "deadbee"), ("message", Json.str msg)]),
       ("build_name", Json.str bn), ("build_stage", Json.str bs),
       ("build_status", Json.str st),
       ("repository", Json.obj [("name", Json.str rn), ("homepage", Json.str rh)])]) =
      none := by
  refine ⟨?_, ?_, ?_, ?_⟩ <;> rfl

/-- Counterexample to C1 as stated: a known-kind decode failure
(`push` with an empty object) and an unknown discriminant produce the
very same `dispatch` result, `Ok(None)`, so the return value does not
distinguish the two cases. -/
theorem c1_result_indistinguishable :
    decodePushEvent (Json.obj []) = none ∧
    dispatch "push" (Json.obj []) = RunResult.ok none ∧
    dispatch "totally_unknown" Json.null = RunResult.ok none ∧
    dispatch "push" (Json.obj []) = dispatch "totally_unknown" Json.null :=
  ⟨rfl, rfl, rfl, rfl⟩

/-- Claim C1 (amended): both an unknown discriminant and a decode
failure of a known discriminant make `dispatch` return the same
non-error `None` ("nothing to forward"); the caller cannot tell the
two cases apart from the returned value (the code distinguishes them
only in log severity). -/
theorem c1_both_cases_none (kind kindK : String) (data dataK : Json)
    (h1 : kind ∉ knownKinds) (h2 : kindK ∈ knownKinds)
    (h3 : knownDecodeFailed kindK dataK = true) :
    dispatch kind data = RunResult.ok none ∧
    dispatch kindK dataK = RunResult.ok none ∧
    dispatch kind data = dispatch kindK dataK := by
  have hu := dispatch_unknown_eq kind data h1
  have hk := dispatch_decode_failed_eq kindK dataK h2 h3
  exact ⟨hu, hk, hu.trans hk.symm⟩

/-- Witness for C1 (amended): concrete unknown kind and concrete
failing `push` decode. -/
theorem c1_both_cases_none_witness :
    dispatch "zzz" Json.null = RunResult.ok none ∧
    dispatch "push" (Json.obj [("user_name", Json.str "u")]) = RunResult.ok none ∧
    dispatch "zzz" Json.null = dispatch "push" (Json.obj [("user_name", Json.str "u")]) :=
  c1_both_cases_none "zzz" "push" Json.null (Json.obj [("user_name", Json.str "u")])
    (by decide) (by decide) (by decide)

/-- Claim C2 (code bug): this `note` payload decodes successfully, yet
rendering its comment panics — `String::truncate(40)` hits the middle
of the two-byte character é, whose first byte is byte 40 of the note —
so rendering a well-formed record is not total.  A commit id whose
byte 7 is not a character boundary panics the `Commit<String>`
renderer the same way. -/
theorem c2_render_panics :
    decodeCommentEvent (Json.obj
      [("user", Json.obj [("name", Json.str "u")]),
       ("object_attributes", Json.obj
         [("noteable_type", Json.str "Commit"), ("url", Json.str "http://x"),
          ("note", Json.str "aaaaaaaaaaaaaaaaaaaaaaaaaaaaaaaaaaaaaaaé")])]) =
      some ⟨⟨"u"⟩, ⟨"Commit", "http://x", "aaaaaaaaaaaaaaaaaaaaaaaaaaaaaaaaaaaaaaaé"⟩⟩ ∧
    CommentEvent.fmt ⟨⟨"u"⟩, ⟨"Commit", "http://x", "aaaaaaaaaaaaaaaaaaaaaaaaaaaaaaaaaaaaaaaé"⟩⟩ =
      none ∧
    dispatch "note" (Json.obj
      [("user", Json.obj [("name", Json.str "u")]),
       ("object_attributes", Json.obj
         [("noteable_type", Json.str "Commit"), ("url", Json.str "http://x"),
          ("note", Json.str "aaaaaaaaaaaaaaaaaaaaaaaaaaaaaaaaaaaaaaaé")])]) =
      RunResult.panicked ∧
    Commit.fmtStr ⟨"éééé", "", "m", ""⟩ = none := by
  refine ⟨?_, ?_, ?_, ?_⟩ <;> decide

/-- Counterexample to C3 as stated: the truncation rule is not
idempotent.  On a 41-byte note whose 40-byte prefix ends in spaces,
one application yields a 41-byte result ending in `"..."`; applying
the rule to that output truncates again and yields a different string
ending in `"....."`. -/
theorem c3_not_idempotent :
    truncateNote "aaaaaaaaaaaaaaaaaaaaaaaaaaaaaaaaaaaaaa  x" =
      some "aaaaaaaaaaaaaaaaaaaaaaaaaaaaaaaaaaaaaa..." ∧
    truncateNote "aaaaaaaaaaaaaaaaaaaaaaaaaaaaaaaaaaaaaa..." =
      some "aaaaaaaaaaaaaaaaaaaaaaaaaaaaaaaaaaaaaa....." ∧
    ("aaaaaaaaaaaaaaaaaaaaaaaaaaaaaaaaaaaaaa....." : String) ≠
      "aaaaaaaaaaaaaaaaaaaaaaaaaaaaaaaaaaaaaa..." := by
  refine ⟨?_, ?_, ?_⟩ <;> decide

/-- Claim C3 (amended): a note of at most 40 bytes is rendered
verbatim; a longer note whose 40-byte cut succeeds is rendered as that
prefix, right-trimmed, plus `"..."`; and re-applying the rule to the
truncated output is a no-op exactly in the benign cases — when the
trimmed prefix is short enough (at most 37 bytes, so the output fits
in 40) or when trimming removed nothing (so the re-cut falls on the
old boundary).  Between those cases (trimmed length 38–39) the rule is
not idempotent. -/
theorem c3_truncation_rule :
    (∀ s : String, byteLen s ≤ 40 → truncateNote s = some s) ∧
    (∀ s t : String, 40 < byteLen s → rustTruncate s 40 = some t →
      truncateNote s = some (rustTrimEnd t ++ "...")) ∧
    (∀ s t : String, 40 < byteLen s → rustTruncate s 40 = some t →
      (byteLen (rustTrimEnd t) + 3 ≤ 40 ∨ rustTrimEnd t = t) →
      truncateNote (rustTrimEnd t ++ "...") = some (rustTrimEnd t ++ "...")) := by
  refine ⟨?_, ?_, ?_⟩
  · intro s h
    unfold truncateNote
    rw [if_neg (by omega)]
  · intro s t h1 h2
    unfold truncateNote
    rw [if_pos (by omega), h2]
    rfl
  · intro s t h1 h2 h3
    rcases h3 with h3 | h3
    · unfold truncateNote
      rw [if_neg (by
        rw [byteLen_append]
        have hd : byteLen "..." = 3 := by decide
        omega)]
    · have hbt : byteLen t = 40 := rustTruncate_byteLen s 40 t h1 h2
      rw [h3]
      unfold truncateNote
      rw [if_pos (by
        rw [byteLen_append]
        have hd : byteLen "..." = 3 := by decide
        omega)]
      have he := rustTruncate_append_exact t "..." (by decide)
      rw [hbt] at he
      rw [he]
      simp [h3]

/-- Witness for C3 (amended): a short note, a 50-byte note of `a`s,
and idempotence on its truncated output. -/
theorem c3_truncation_rule_witness :
    truncateNote "short" = some "short" ∧
    truncateNote "aaaaaaaaaaaaaaaaaaaaaaaaaaaaaaaaaaaaaaaaaaaaaaaaaa" =
      some (rustTrimEnd "aaaaaaaaaaaaaaaaaaaaaaaaaaaaaaaaaaaaaaaa" ++ "...") ∧
    truncateNote (rustTrimEnd "aaaaaaaaaaaaaaaaaaaaaaaaaaaaaaaaaaaaaaaa" ++ "...") =
      some (rustTrimEnd "aaaaaaaaaaaaaaaaaaaaaaaaaaaaaaaaaaaaaaaa" ++ "...") :=
  ⟨c3_truncation_rule.1 "short" (by decide),
   c3_truncation_rule.2.1 "aaaaaaaaaaaaaaaaaaaaaaaaaaaaaaaaaaaaaaaaaaaaaaaaaa"
     "aaaaaaaaaaaaaaaaaaaaaaaaaaaaaaaaaaaaaaaa" (by decide) (by decide),
   c3_truncation_rule.2.2 "aaaaaaaaaaaaaaaaaaaaaaaaaaaaaaaaaaaaaaaaaaaaaaaaaa"
     "aaaaaaaaaaaaaaaaaaaaaaaaaaaaaaaaaaaaaaaa" (by decide) (by decide)
     (Or.inr (by decide))⟩

/-- Counterexample to C4 as stated: a tag ref with no `/` renders the
whole ref as the tag name, not the literal `"<invalid>"` — `rsplit`
always yields at least one segment, so the fallback is unreachable. -/
theorem c4_no_slash_renders_ref :
    TagPushEvent.fmt ⟨"u", zeros40, "v1.0", ⟨"r", "h"⟩⟩ =
      "🔖 u pushed tag \"v1.0\" to r (h)" ∧
    TagPushEvent.fmt ⟨"u", zeros40, "v1.0", ⟨"r", "h"⟩⟩ ≠
      "🔖 u pushed tag \"<invalid>\" to r (h)" := by
  constructor <;> decide

/-- Claim C4 (amended): the rendered tag name is always the segment of
the ref after the last `/` — the entire ref when it contains no `/`;
the `"<invalid>"` fallback never appears. -/
theorem c4_tag_name_last_segment (e : TagPushEvent) :
    TagPushEvent.fmt e = "🔖 " ++ e.user_name ++ " " ++
      (if e.before == zeros40 then "pushed" else "deleted") ++ " tag \"" ++
      lastSegment e.tag_ref ++ "\" to " ++ e.repository.fmt := by
  unfold TagPushEvent.fmt
  rw [rsplitFirst_slash]

/-- Counterexample to C7 as stated: a `note` payload with no
`repository` field at all decodes successfully and is rendered, rather
than being a decode failure. -/
theorem c7_no_repository_decodes :
    decodeCommentEvent (Json.obj
      [("user", Json.obj [("name", Json.str "alice")]),
       ("object_attributes", Json.obj
         [("noteable_type", Json.str "Commit"), ("url", Json.str "http://x"),
          ("note", Json.str "hi")])]) =
      some ⟨⟨"alice"⟩, ⟨"Commit", "http://x", "hi"⟩⟩ ∧
    dispatch "note" (Json.obj
      [("user", Json.obj [("name", Json.str "alice")]),
       ("object_attributes", Json.obj
         [("noteable_type", Json.str "Commit"), ("url", Json.str "http://x"),
          ("note", Json.str "hi")])]) =
      RunResult.ok (some "💬 alice commented on commit http://x: hi") := by
  constructor <;> decide

/-- Claim C7 (amended): decoding a `note` payload requires the actor
(`user.name`) and the `object_attributes` fields noteable type, URL
and note text; the repository is not part of the note schema, so its
absence does not fail the decode, while a missing note text or a
missing user does. -/
theorem c7_note_schema (n t u m : String) :
    decodeCommentEvent (Json.obj
      [("user", Json.obj [("name", Json.str n)]),
       ("object_attributes", Json.obj
         [("noteable_type", Json.str t), ("url", Json.str u), ("note", Json.str m)])]) =
      some ⟨⟨n⟩, ⟨t, u, m⟩⟩ ∧
    decodeCommentEvent (Json.obj
      [("user", Json.obj [("name", Json.str n)]),
       ("object_attributes", Json.obj
         [("noteable_type", Json.str t), ("url", Json.str u)])]) = none ∧
    decodeCommentEvent (Json.obj
      [("object_attributes", Json.obj
         [("noteable_type", Json.str t), ("url", Json.str u), ("note", Json.str m)])]) =
      none := by
  refine ⟨?_, ?_, ?_⟩ <;> rfl
